import Mathlib

set_option maxHeartbeats 1000000

/-!
# Verification of the per-blade network reconciliation engine

Shallow embedding of `src/vtds_platform_ubuntu/private/scripts/deploy_to_blade.py`
(the `run_cmd` helper, the `NetworkInstaller` class and the network phase of
`main`), together with theorems settling the frozen claims about it.

The operating-system state mutated by the script (kernel links, fdb entries,
the libvirt network registry) is modelled explicitly as `DevState`; every
external command issued through `run_cmd` is recorded in an execution trace
carrying the command line and the `timeout` argument it was invoked with.
-/

deriving instance DecidableEq for Except

namespace VtdsUbuntu

/-- One element of an interface's `addr_info` array as printed by
`ip -d --json addr`; `localIp` is the value of its `local` key when that key
is present (`'local' in info` in the Python source). -/
structure AddrInfo where
  localIp : Option String
deriving DecidableEq

/-- A network link (interface).  This is both the kernel-side device record and
the snapshot record `_get_interfaces` reads back: `info_kind` is
`linkinfo.info_kind` when a `linkinfo` object is present (`some "vxlan"`,
`some "bridge"`, ...), `fdb_dsts` is the list of `dst` fields of the
forwarding-database entries owned by the link, in the order they were
appended. -/
structure Link where
  name : String
  info_kind : Option String := none
  vni : String := ""
  dev : String := ""
  master : Option String := none
  addr_info : List AddrInfo := []
  fdb_dsts : List String := []
deriving DecidableEq

/-- A network known to the virtualization manager (libvirt): its name and the
bridge its XML definition binds it to. -/
structure RegNet where
  name : String
  bridge : String
deriving DecidableEq

/-- One external command issued through `run_cmd`: program, argument list and
the `timeout` keyword argument the call supplied (`none` = Python default). -/
structure Cmd where
  prog : String
  args : List String
  timeout : Option Nat
deriving DecidableEq

/-- The machine state the script mutates: the ordered list of kernel links,
the virtualization-manager network registry, and the trace of external
commands issued so far. -/
structure DevState where
  links : List Link
  registry : List RegNet
  trace : List Cmd := []
deriving DecidableEq

/-- The names currently registered with the virtualization manager, in listing
order (`virsh net-list --name`). -/
def registryNames (d : DevState) : List String :=
  d.registry.map (fun r => r.name)

/-! ## The command runner (`run_cmd`, lines 108-156)

`run_cmd` starts the process and then polls `command.wait(timeout=5)` in a
loop.  We model the process's behaviour as a script of wait outcomes, one per
iteration of the loop: either the wait returns an exit code or it expires.
The Python truthiness test `if timeout and time > timeout:` is modelled
exactly (a `None` or `0` timeout never escalates). -/

/-- Outcome of one `command.wait(timeout=5)` call: the process exited with a
code, or the five-second wait expired. -/
inductive WaitOutcome where
  | exited (code : Int)
  | expired
deriving DecidableEq

/-- How a `run_cmd` invocation ends.
* `ok`: the command exited zero.
* `cmdFailed`: nonzero exit, reported as `"command ... failed"` (the
  `signaled` flag was false at the final check).
* `killedReport`: nonzero exit reported as
  `"command ... timed out and was killed"` (the `signaled` flag was true).
* `killEscalation`: the in-loop `ContextualError` raised right after
  `command.kill()`.
* `pending`: the wait-outcome script ran out while the loop was still
  polling (the process had not exited yet). -/
inductive RunOutcome where
  | ok
  | cmdFailed
  | killedReport
  | killEscalation
  | pending
deriving DecidableEq

/-- Result of running the `run_cmd` wait loop: how it ended, and how many
`terminate()` and `kill()` calls it issued. -/
structure LoopResult where
  outcome : RunOutcome
  terminates : Nat
  kills : Nat
deriving DecidableEq

/-- The wait loop of `run_cmd`, transcribed from the source.  `time` is the
accumulated poll time, `signaled` the flag initialised to `False` at line 119
(the source never assigns it again), `t`/`k` count `terminate()`/`kill()`
calls.  Each list element feeds one `command.wait(timeout=5)` call. -/
def waitLoop (timeout : Option Nat) :
    List WaitOutcome → Nat → Bool → Nat → Nat → LoopResult
  | [], _, _, t, k => ⟨.pending, t, k⟩
  | .exited code :: _, _, signaled, t, k =>
      -- the wait returned: the loop breaks, then the final exit check runs
      ⟨if code = 0 then .ok
       else if signaled then .killedReport else .cmdFailed, t, k⟩
  | .expired :: rest, time, signaled, t, k =>
      let time := time + 5
      match timeout with
      | some tmo =>
          if tmo ≠ 0 ∧ time > tmo then
            if ¬ signaled then
              -- "First try to terminate the process"; the source does not
              -- set `signaled`, so the flag is still false next time around
              waitLoop (some tmo) rest time signaled (t + 1) k
            else
              ⟨.killEscalation, t, k + 1⟩
          else
            waitLoop (some tmo) rest time signaled t k
      | none => waitLoop none rest time signaled t k

/-- `run_cmd cmd args stdin timeout`, restricted to its wait/escalation
behaviour: the loop starts with `time = 0` and `signaled = False`. -/
def run_cmd_model (timeout : Option Nat) (script : List WaitOutcome) :
    LoopResult :=
  waitLoop timeout script 0 false 0 0

/-! ## Device-level operations

Each helper mirrors one `run_cmd` call site of `NetworkInstaller` together
with the effect the issued command has on the machine state.  Every call site
in the class passes no `timeout`, hence `none` in the recorded `Cmd`. -/

/-- Record one external command in the trace (all `NetworkInstaller` call
sites use the default `timeout=None`). -/
def runDev (d : DevState) (prog : String) (args : List String) : DevState :=
  { d with trace := d.trace ++ [⟨prog, args, none⟩] }

/-- Modify the first link satisfying `p` (kernel link names are unique, so
"first" is "the" link). -/
def modifyFirst (p : Link → Bool) (f : Link → Link) : List Link → List Link
  | [] => []
  | l :: ls => if p l then f l :: ls else l :: modifyFirst p f ls

/-- `remove_link` (line 373): `ip link del <if_name>`. -/
def remove_link (d : DevState) (if_name : String) : DevState :=
  let d := runDev d "ip" ["link", "del", if_name]
  { d with links := d.links.filter (fun l => l.name ≠ if_name) }

/-- `add_new_tunnel` (line 380): create the VxLAN tunnel ingress, create the
bridge, and master the tunnel under the bridge. -/
def add_new_tunnel (d : DevState)
    (tunnel_name bridge_name vxlan_id device : String) : DevState :=
  let d := runDev d "ip"
    ["link", "add", tunnel_name, "type", "vxlan",
     "id", vxlan_id, "dev", device, "dstport", "0"]
  let d := { d with links := d.links ++
    [{ name := tunnel_name, info_kind := some "vxlan",
       vni := vxlan_id, dev := device }] }
  let d := runDev d "ip" ["link", "add", bridge_name, "type", "bridge"]
  let d := { d with links := d.links ++
    [{ name := bridge_name, info_kind := some "bridge" }] }
  let d := runDev d "ip" ["link", "set", tunnel_name, "master", bridge_name]
  let mastered := modifyFirst (fun l => l.name == tunnel_name)
    (fun l => { l with master := some bridge_name }) d.links
  { d with links := mastered }

/-- One `bridge fdb append to 00:00:00:00:00:00 dst <ip> dev <dev>` call
(the loop body of `connect_endpoints`): appends a destination to the
forwarding database of the named device. -/
def fdb_append (d : DevState) (ip_addr dev_name : String) : DevState :=
  let d := runDev d "bridge"
    ["fdb", "append", "to", "00:00:00:00:00:00",
     "dst", ip_addr, "dev", dev_name]
  let appended := modifyFirst (fun l => l.name == dev_name)
    (fun l => { l with fdb_dsts := l.fdb_dsts ++ [ip_addr] }) d.links
  { d with links := appended }

/-- `connect_endpoints` (line 409): one `bridge fdb append` per element of
`endpoint_ips` that differs from the local IP, in list order. -/
def connect_endpoints (d : DevState) (tunnel_name : String)
    (endpoint_ips : List String) (local_ip_addr : String) : DevState :=
  let remote_ips := endpoint_ips.filter (fun ip_addr => ip_addr ≠ local_ip_addr)
  remote_ips.foldl (fun d ip_addr => fdb_append d ip_addr tunnel_name) d

/-- The forwarding-database destination list of the named device (what
`_get_interfaces` reads back into `fdb_dsts`). -/
def fdbOf (d : DevState) (n : String) : List String :=
  match d.links.find? (fun l => l.name == n) with
  | some l => l.fdb_dsts
  | none => []

/-! ## The `NetworkInstaller` snapshot

`__init__` (line 322) captures `self.interfaces` (a dict keyed by `ifname`;
kernel interface names are unique, so a list with `find?` lookups is the
faithful counterpart), derives `self.vxlans` / `self.bridges` from it, and
captures `self.vnets` from `virsh net-list --name`.  The snapshot is **not**
refreshed by the mutating operations; only `self.vnets` is kept up to date by
`add_virtual_network` / `remove_virtual_network`. -/

/-- The `NetworkInstaller` object: the interface snapshot and the mutable
`vnets` list. -/
structure Installer where
  interfaces : List Link
  vnets : List String
deriving DecidableEq

/-- Build a fresh `NetworkInstaller` from the current machine state
(`_get_interfaces` + `_get_virtual_networks`). -/
def mkInstaller (d : DevState) : Installer :=
  { interfaces := d.links, vnets := registryNames d }

/-- `name in self.interfaces`. -/
def hasIf (inst : Installer) (n : String) : Bool :=
  (inst.interfaces.find? (fun l => l.name == n)).isSome

/-- `name in self.vxlans`: the interface record for `n` exists and carries
`linkinfo.info_kind == 'vxlan'`. -/
def inVxlans (inst : Installer) (n : String) : Bool :=
  match inst.interfaces.find? (fun l => l.name == n) with
  | some l => l.info_kind == some "vxlan"
  | none => false

/-- `name in self.bridges`. -/
def inBridges (inst : Installer) (n : String) : Bool :=
  match inst.interfaces.find? (fun l => l.name == n) with
  | some l => l.info_kind == some "bridge"
  | none => false

/-- The `ContextualError`s raised by the reconciliation logic itself. -/
inductive Err where
  /-- "conflicting non-virtual network interface already exists" (line 343) -/
  | tunnelConflict (name : String)
  /-- "conflicting non-bridge network interface already exists" (line 348) -/
  | bridgeConflict (name : String) (bridge : String)
  /-- "no network device was found with an IP address matching ..." (line 368) -/
  | noUnderlay (endpoint_ips : List String)
deriving DecidableEq

/-- Whether an `Err` is one of the two name-conflict errors (the spec's
`NameConflictError`). -/
def Err.isNameConflict : Err → Bool
  | .tunnelConflict _ => true
  | .bridgeConflict _ _ => true
  | .noUnderlay _ => false

/-- `_check_conflict` (line 337): two sequential checks, tunnel name first. -/
def check_conflict (inst : Installer) (name bridge_name : String) :
    Except Err Unit :=
  if hasIf inst name && !(inVxlans inst name) then
    .error (.tunnelConflict name)
  else if hasIf inst bridge_name && !(inBridges inst bridge_name) then
    .error (.bridgeConflict name bridge_name)
  else
    .ok ()

/-- The first local address of one interface that is a member of
`endpoint_ips` (the inner loop of `_find_underlay`). -/
def findLocal (endpoint_ips : List String) (l : Link) : Option String :=
  l.addr_info.findSome? (fun info =>
    match info.localIp with
    | some a => if a ∈ endpoint_ips then some a else none
    | none => none)

/-- `_find_underlay` (line 354): scan interfaces in snapshot order, then each
interface's `addr_info` in order; return the first `(intf, local)` pair with
`local` in `endpoint_ips`, else raise. -/
def find_underlay (inst : Installer) (endpoint_ips : List String) :
    Except Err (String × String) :=
  match inst.interfaces.findSome? (fun l =>
      (findLocal endpoint_ips l).map (fun a => (l.name, a))) with
  | some p => .ok p
  | none => .error (.noUnderlay endpoint_ips)

/-- All `(interface name, local address)` pairs of a snapshot, enumerated the
way `_find_underlay` walks them: interfaces in snapshot order, each
interface's `addr_info` records in order, keeping those with a `local` key. -/
def addrPairs : List Link → List (String × String)
  | [] => []
  | l :: ls =>
    l.addr_info.filterMap (fun info => info.localIp.map (fun a => (l.name, a)))
      ++ addrPairs ls

/-- `add_virtual_network` (line 429): `virsh net-define` on a temporary XML
file binding `network_name` to `bridge_name`, then `net-start` and
`net-autostart`, then `self.vnets.append(network_name)`.  The temporary file
name is a runtime artifact; the trace records a placeholder. -/
def add_virtual_network (inst : Installer) (d : DevState)
    (network_name bridge_name : String) : Installer × DevState :=
  let d := runDev d "virsh" ["net-define", "<tmpfile>"]
  let d := { d with registry := d.registry ++ [⟨network_name, bridge_name⟩] }
  let d := runDev d "virsh" ["net-start", network_name]
  let d := runDev d "virsh" ["net-autostart", network_name]
  ({ inst with vnets := inst.vnets ++ [network_name] }, d)

/-- Remove the first registry entry with the given name (`virsh
net-undefine`; virtualization-manager network names are unique keys). -/
def eraseReg (network_name : String) : List RegNet → List RegNet
  | [] => []
  | r :: rs => if r.name == network_name then rs else r :: eraseReg network_name rs

/-- `remove_virtual_network` (line 450): no-op unless `network_name` is in
`self.vnets`; otherwise `virsh net-destroy`, `virsh net-undefine`, and
`self.vnets.remove(network_name)`. -/
def remove_virtual_network (inst : Installer) (d : DevState)
    (network_name : String) : Installer × DevState :=
  if network_name ∈ inst.vnets then
    let d := runDev d "virsh" ["net-destroy", network_name]
    let d := runDev d "virsh" ["net-undefine", network_name]
    let d := { d with registry := eraseReg network_name d.registry }
    ({ inst with vnets := inst.vnets.erase network_name }, d)
  else
    (inst, d)

/-- The declarative description of one network, with the optionality of the
`config.get` accesses of `construct_virtual_network` made explicit. -/
structure NetworkConfig where
  network_name : Option String := none
  tunnel_name : Option String := none
  bridge_name : Option String := none
  tunnel_id : Option Nat := none
  endpoint_ips : Option (List String) := none
deriving DecidableEq

/-- `network_name = config.get('network_name', "")`. -/
def NetworkConfig.networkName (c : NetworkConfig) : String :=
  c.network_name.getD ""

/-- `tunnel_name = config.get('tunnel_name', network_name)`. -/
def NetworkConfig.tunnelName (c : NetworkConfig) : String :=
  c.tunnel_name.getD c.networkName

/-- `bridge_name = config.get('bridge_name', "br-%s" % tunnel_name)`. -/
def NetworkConfig.bridgeName (c : NetworkConfig) : String :=
  c.bridge_name.getD ("br-" ++ c.tunnelName)

/-- `vxlan_id = str(config.get('tunnel_id', "0"))`. -/
def NetworkConfig.vxlanId (c : NetworkConfig) : String :=
  match c.tunnel_id with
  | some n => toString n
  | none => "0"

/-- `endpoint_ips = config.get('endpoint_ips', [])`. -/
def NetworkConfig.endpointIps (c : NetworkConfig) : List String :=
  c.endpoint_ips.getD []

/-- `construct_virtual_network` (line 461).  A Python exception leaves the
already-performed machine mutations in place, so the machine state is
returned alongside the `Except`: `(.error e, d)` is a raise of `e` with the
machine left in state `d`. -/
def construct_virtual_network (inst : Installer) (d : DevState)
    (config : NetworkConfig) : Except Err Installer × DevState :=
  let network_name := config.networkName
  let tunnel_name := config.tunnelName
  let bridge_name := config.bridgeName
  let vxlan_id := config.vxlanId
  let endpoint_ips := config.endpointIps
  match check_conflict inst tunnel_name bridge_name with
  | .error e => (.error e, d)
  | .ok _ =>
    let d := if hasIf inst tunnel_name then remove_link d tunnel_name else d
    let d := if hasIf inst bridge_name then remove_link d bridge_name else d
    match find_underlay inst endpoint_ips with
    | .error e => (.error e, d)
    | .ok dl =>
      let d := add_new_tunnel d tunnel_name bridge_name vxlan_id dl.1
      let d := connect_endpoints d tunnel_name endpoint_ips dl.2
      let p := remove_virtual_network inst d network_name
      let q := add_virtual_network p.1 p.2 network_name bridge_name
      (.ok q.1, q.2)

/-- The machine state after the two conditional `remove_link` steps of
`construct_virtual_network` (an abbreviation for stating where the
reconciliation stands when `_find_underlay` raises). -/
def afterRemovals (inst : Installer) (d : DevState) (cfg : NetworkConfig) :
    DevState :=
  let d := if hasIf inst cfg.tunnelName then remove_link d cfg.tunnelName else d
  if hasIf inst cfg.bridgeName then remove_link d cfg.bridgeName else d

/-- The state after the build/mesh/registrar steps of a successful
`construct_virtual_network` body, given the resolved underlay pair (an
abbreviation for the tail of the function). -/
def buildSteps (inst : Installer) (d : DevState) (cfg : NetworkConfig)
    (device local_ip_addr : String) : Installer × DevState :=
  let d := add_new_tunnel d cfg.tunnelName cfg.bridgeName cfg.vxlanId device
  let d := connect_endpoints d cfg.tunnelName cfg.endpointIps local_ip_addr
  let p := remove_virtual_network inst d cfg.networkName
  add_virtual_network p.1 p.2 cfg.networkName cfg.bridgeName

/-- The loop of `main` over `networks.items()`: each network is constructed
in turn; a `ContextualError` aborts the run (the machine keeps the mutations
made so far). -/
def run_networks : Installer → DevState → List NetworkConfig →
    Except Err Installer × DevState
  | inst, d, [] => (.ok inst, d)
  | inst, d, cfg :: rest =>
    let r := construct_virtual_network inst d cfg
    match r.1 with
    | .ok inst' => run_networks inst' r.2 rest
    | .error e => (.error e, r.2)

/-- The network phase of `main` (lines 495-498): build the installer snapshot
once, remove the `"default"` libvirt network, then construct each configured
network in order. -/
def main_networks (d : DevState) (networks : List NetworkConfig) :
    Except Err Installer × DevState :=
  let inst := mkInstaller d
  let p := remove_virtual_network inst d "default"
  run_networks p.1 p.2 networks

/-- One reconciliation pass for a single spec: a fresh snapshot followed by
`construct_virtual_network` (the per-spec core of a per-blade run). -/
def reconcile_pass (d : DevState) (config : NetworkConfig) :
    Except Err Installer × DevState :=
  construct_virtual_network (mkInstaller d) d config

/-- The device/registration state (links and registry, without the command
trace): what "the final device and registration state" of the machine is. -/
def netState (d : DevState) : List Link × List RegNet :=
  (d.links, d.registry)

/-- An operation on the registered-network list: the two `NetworkInstaller`
methods that touch `self.vnets`. -/
inductive NetOp where
  | rem (network_name : String)
  | cons (config : NetworkConfig)

/-- Apply one `NetOp`; a failing `construct_virtual_network` leaves the
installer unchanged (its `self.vnets` mutations all come after the last
possible raise). -/
def applyOp (inst : Installer) (d : DevState) : NetOp → Installer × DevState
  | .rem n => remove_virtual_network inst d n
  | .cons cfg =>
    let r := construct_virtual_network inst d cfg
    match r.1 with
    | .ok inst' => (inst', r.2)
    | .error _ => (inst, r.2)

/-- Apply a sequence of `NetOp`s left to right. -/
def applyOps (inst : Installer) (d : DevState) : List NetOp → Installer × DevState
  | [] => (inst, d)
  | op :: ops =>
    let p := applyOp inst d op
    applyOps p.1 p.2 ops

/-! ## The Local Network State Reader on raw query results (`_get_interfaces`)

`_get_interfaces` (line 276) runs `ip -d --json addr` and `bridge --json fdb`
directly through `Popen` (not through `run_cmd`, so without the `OSError`
→ `ContextualError` translation), feeds the raw output to `json.loads`, and
folds the forwarding-database entries into the interface dict.  We model the
raw result of each query and transcribe the parsing/folding logic, keeping
track of which Python exception escapes. -/

/-- The raw result of one `Popen` + `json.loads` query: the tool is missing
(`Popen` raises `FileNotFoundError`, an `OSError`), the output is not valid
JSON (`json.loads` raises `json.JSONDecodeError`), or structured data was
parsed. -/
inductive QueryResult (α : Type) where
  | noTool
  | badJson
  | parsed (data : α)

/-- One record of the `ip -d --json addr` output that `_get_interfaces`
consumes: the `ifname`, the `linkinfo.info_kind` when a `linkinfo` object is
present, and the `addr_info` array. -/
structure IfaceJson where
  ifname : String
  linkinfo : Option String := none
  addr_info : List AddrInfo := []
deriving DecidableEq

/-- One record of the `bridge --json fdb` output: the owning `ifname` and the
`dst` field when present. -/
structure FdbEntry where
  ifname : String
  dst : Option String
deriving DecidableEq

/-- A Python exception that is not a `ContextualError`. -/
inductive PyError where
  | osError
  | jsonDecodeError
  | keyError (key : String)
deriving DecidableEq

/-- Anything `_get_interfaces` can raise: a `ContextualError` (the only kind
`entrypoint` handles) or an unclassified Python exception. -/
inductive RaisedError where
  | contextual (e : Err)
  | unclassified (p : PyError)
deriving DecidableEq

/-- Build the initial interface record from a parsed `ip` record (no
`fdb_dsts` key yet). -/
def mkIface (j : IfaceJson) : Link :=
  { name := j.ifname, info_kind := j.linkinfo, addr_info := j.addr_info }

/-- The fdb folding loop of `_get_interfaces` (lines 295-302): for every fdb
entry carrying a `dst`, look the owning interface up by name —
`interfaces[dst['ifname']]` raises `KeyError` when absent — and append the
destination to its `fdb_dsts`. -/
def foldFdb (ifaces : List Link) : List FdbEntry → Except RaisedError (List Link)
  | [] => .ok ifaces
  | e :: rest =>
    match e.dst with
    | none => foldFdb ifaces rest
    | some dst =>
      if (ifaces.find? (fun l => l.name == e.ifname)).isSome then
        foldFdb (modifyFirst (fun l => l.name == e.ifname)
          (fun l => { l with fdb_dsts := l.fdb_dsts ++ [dst] }) ifaces) rest
      else
        .error (.unclassified (.keyError e.ifname))

/-- `_get_interfaces` on the raw results of its two queries. -/
def get_interfaces (ifq : QueryResult (List IfaceJson))
    (fdbq : QueryResult (List FdbEntry)) : Except RaisedError (List Link) :=
  match ifq with
  | .noTool => .error (.unclassified .osError)
  | .badJson => .error (.unclassified .jsonDecodeError)
  | .parsed if_data =>
    match fdbq with
    | .noTool => .error (.unclassified .osError)
    | .badJson => .error (.unclassified .jsonDecodeError)
    | .parsed fdb_data => foldFdb (if_data.map mkIface) fdb_data

/-- What `entrypoint` (line 501) does with an error reaching it: a
`ContextualError` is reported and turned into `sys.exit(1)`; any other
exception propagates out unhandled. -/
inductive ExitBehavior where
  | exitZero
  | exitOne
  | escaped (p : PyError)
deriving DecidableEq

/-- `entrypoint`'s handling of the outcome of `main_func`. -/
def entrypoint_model (r : Except RaisedError Unit) : ExitBehavior :=
  match r with
  | .ok _ => .exitZero
  | .error (.contextual _) => .exitOne
  | .error (.unclassified p) => .escaped p

/-- Whether a raised error is a `ContextualError` (the application's own
classified error type — the spec's `DiscoveryError` would be one). -/
def RaisedError.isContextual : RaisedError → Bool
  | .contextual _ => true
  | .unclassified _ => false

/-! ## Concrete example states

Small closed machine states and specs used by the per-claim witness and
counterexample theorems below. -/

/-- A blade with a single plain (non-vxlan, non-bridge) interface `eth0`. -/
def exConflictDev : DevState := { links := [{ name := "eth0" }], registry := [] }

/-- A spec whose derived tunnel name collides with `eth0`. -/
def exConflictCfg : NetworkConfig := { network_name := some "eth0" }

/-- A blade with a single vxlan interface `vx9` and nothing registered. -/
def exVx9Dev : DevState :=
  { links := [{ name := "vx9", info_kind := some "vxlan" }], registry := [] }

/-- A spec reusing the existing tunnel name `vx9` with an unmatchable
endpoint list. -/
def exVx9Cfg : NetworkConfig :=
  { tunnel_name := some "vx9", endpoint_ips := some ["10.0.0.9"] }

/-- A blade with a single vxlan interface `vx0` (no addresses). -/
def exVx0Dev : DevState :=
  { links := [{ name := "vx0", info_kind := some "vxlan" }], registry := [] }

/-- A spec naming the existing `vx0` as tunnel, with an endpoint list that
matches no local address. -/
def exVx0Cfg : NetworkConfig :=
  { network_name := some "net0", tunnel_name := some "vx0",
    endpoint_ips := some ["10.0.0.9"] }

/-- A blade whose only interface `eth0` holds the local address
`192.168.1.5`. -/
def exEth0Dev : DevState :=
  { links := [{ name := "eth0", addr_info := [⟨some "192.168.1.5"⟩] }],
    registry := [] }

/-- A spec whose endpoint list `["10.0.0.1"]` misses every local address. -/
def exEth0Cfg : NetworkConfig :=
  { network_name := some "net0", endpoint_ips := some ["10.0.0.1"] }

/-- A blade with a freshly created vxlan tunnel `vx0` (empty forwarding
database). -/
def exMeshDev : DevState :=
  { links := [{ name := "vx0", info_kind := some "vxlan" }], registry := [] }

/-- A blade with no interfaces and only the `default` libvirt network
registered. -/
def exMainDev : DevState :=
  { links := [], registry := [⟨"default", "virbr0"⟩] }

/-- A blade with address `10.0.0.2` on `eth0` and a stale registration of
`net1`. -/
def exRunDev : DevState :=
  { links := [{ name := "eth0", addr_info := [⟨some "10.0.0.2"⟩] }],
    registry := [⟨"net1", "br-net1"⟩] }

/-- A spec for `net1` reachable through the local address `10.0.0.2`. -/
def exRunCfg : NetworkConfig :=
  { network_name := some "net1", endpoint_ips := some ["10.0.0.1", "10.0.0.2"] }

/-- The tunnel link a successful build produces: vxlan device bound to the
resolved underlay, mastered under the bridge, with one appended fdb
destination per non-local element of `endpoint_ips`, in order. -/
def tunnelLink (cfg : NetworkConfig) (device lip : String) : Link :=
  { name := cfg.tunnelName, info_kind := some "vxlan", vni := cfg.vxlanId,
    dev := device, master := some cfg.bridgeName,
    fdb_dsts := cfg.endpointIps.filter (fun ip_addr => ip_addr ≠ lip) }

/-- The bridge link a successful build produces. -/
def bridgeLink (cfg : NetworkConfig) : Link :=
  { name := cfg.bridgeName, info_kind := some "bridge" }

/-- The spec scenario of the spec's §8: blade address `10.0.0.2`, overlay
`fabric0` with VNI 42 and three endpoints. -/
def exIdemDev : DevState :=
  { links := [{ name := "eth0", addr_info := [⟨some "10.0.0.2"⟩] }],
    registry := [] }

/-- NetworkSpec `fabric0` of the spec's §8 scenario. -/
def exIdemCfg : NetworkConfig :=
  { network_name := some "fabric0", tunnel_id := some 42,
    endpoint_ips := some ["10.0.0.1", "10.0.0.2", "10.0.0.3"] }

/-! ## Theorems about the command runner -/

/-- Since `run_cmd` never assigns `signaled = True`, a loop started with
`signaled = False` can never reach `command.kill()`, the in-loop timeout
`ContextualError`, or the "timed out and was killed" report. -/
theorem waitLoop_no_kill (tmo : Option Nat) (script : List WaitOutcome) :
    ∀ (time t k : Nat),
      (waitLoop tmo script time false t k).kills = k ∧
      (waitLoop tmo script time false t k).outcome ≠ RunOutcome.killedReport ∧
      (waitLoop tmo script time false t k).outcome ≠ RunOutcome.killEscalation := by
  induction script with
  | nil => intro time t k; simp [waitLoop]
  | cons w rest ih =>
    intro time t k
    cases w with
    | exited c =>
      by_cases h : c = 0 <;> simp [waitLoop, h]
    | expired =>
      simp only [waitLoop]
      cases tmo with
      | none => exact ih _ _ _
      | some m =>
        by_cases h : m ≠ 0 ∧ time + 5 > m
        · simp only [if_pos h, Bool.not_eq_true, if_pos rfl]
          simpa using ih (time + 5) (t + 1) k
        · simp only [if_neg h]
          exact ih _ _ _

/-- A `run_cmd` call with the default `timeout=None` never takes the
escalation branch at all, and keeps polling as long as the process has not
exited. -/
theorem waitLoop_none_passive (script : List WaitOutcome) :
    ∀ (time t k : Nat),
      (waitLoop none script time false t k).terminates = t ∧
      (waitLoop none script time false t k).kills = k ∧
      ((waitLoop none script time false t k).outcome = RunOutcome.pending ↔
        ∀ w ∈ script, w = WaitOutcome.expired) := by
  induction script with
  | nil => intro time t k; simp [waitLoop]
  | cons w rest ih =>
    intro time t k
    cases w with
    | exited c =>
      refine ⟨by simp [waitLoop], by simp [waitLoop], ?_⟩
      constructor
      · intro h
        exfalso
        by_cases hc : c = 0 <;> simp [waitLoop, hc] at h
      · intro h
        exact absurd (h (WaitOutcome.exited c) (List.mem_cons_self _ _)) (by simp)
    | expired =>
      simp only [waitLoop]
      refine ⟨(ih _ _ _).1, (ih _ _ _).2.1, ?_⟩
      rw [(ih (time + 5) t k).2.2]
      simp

/-- C4: the claim says that once the overall timeout elapses, `run_cmd` first
requests graceful termination and then, if the process still does not exit
within the next poll interval, kills it and reports a distinct
killed-after-timeout failure.  The code cannot do this: `signaled` is never
set, so `kill()` is dead code, the distinct "timed out and was killed" report
and the in-loop escalation error are unreachable, and the runner merely sends
`terminate()` again on every later poll (witnessed on a 5-second timeout with
a process that never exits, and one that exits -15 after the first
terminate, which is then reported as an ordinary failure). -/
theorem run_cmd_kill_path_dead :
    (∀ (tmo : Option Nat) (script : List WaitOutcome),
        (run_cmd_model tmo script).kills = 0 ∧
        (run_cmd_model tmo script).outcome ≠ RunOutcome.killedReport ∧
        (run_cmd_model tmo script).outcome ≠ RunOutcome.killEscalation) ∧
    (run_cmd_model (some 5) (List.replicate 4 .expired)).terminates = 3 ∧
    (run_cmd_model (some 5) (List.replicate 4 .expired)).kills = 0 ∧
    (run_cmd_model (some 5) (List.replicate 4 .expired)).outcome
      = RunOutcome.pending ∧
    (run_cmd_model (some 5)
        [.expired, .expired, .exited (-15)]).outcome = RunOutcome.cmdFailed :=
  ⟨fun tmo script => waitLoop_no_kill tmo script 0 0 0, rfl, rfl, rfl, rfl⟩

/-- `d'` extends the trace of `d` only with commands run at the default
`timeout=None`. -/
def TraceOK (d d' : DevState) : Prop :=
  ∀ c ∈ d'.trace, c ∈ d.trace ∨ c.timeout = none

theorem traceOK_refl (d : DevState) : TraceOK d d :=
  fun _ h => Or.inl h

theorem traceOK_runDev {d d' : DevState} (h : TraceOK d d')
    (prog : String) (args : List String) : TraceOK d (runDev d' prog args) := by
  intro c hc
  simp only [runDev, List.mem_append, List.mem_singleton] at hc
  rcases hc with hc | hc
  · exact h c hc
  · exact Or.inr (by simp [hc])

theorem traceOK_remove_link {d d' : DevState} (h : TraceOK d d')
    (n : String) : TraceOK d (remove_link d' n) :=
  traceOK_runDev h "ip" ["link", "del", n]

theorem traceOK_add_new_tunnel {d d' : DevState} (h : TraceOK d d')
    (tn bn vni dev : String) : TraceOK d (add_new_tunnel d' tn bn vni dev) := by
  have h1 := traceOK_runDev h "ip"
    ["link", "add", tn, "type", "vxlan", "id", vni, "dev", dev, "dstport", "0"]
  have h2 : TraceOK d { runDev d' "ip"
      ["link", "add", tn, "type", "vxlan", "id", vni, "dev", dev, "dstport", "0"]
      with links := _ } := h1
  have h3 := traceOK_runDev h2 "ip" ["link", "add", bn, "type", "bridge"]
  have h4 : TraceOK d { runDev _ "ip" ["link", "add", bn, "type", "bridge"]
      with links := _ } := h3
  have h5 := traceOK_runDev h4 "ip" ["link", "set", tn, "master", bn]
  exact h5

theorem traceOK_fdb_append {d d' : DevState} (h : TraceOK d d')
    (ip_addr dev_name : String) : TraceOK d (fdb_append d' ip_addr dev_name) :=
  traceOK_runDev h "bridge"
    ["fdb", "append", "to", "00:00:00:00:00:00", "dst", ip_addr, "dev", dev_name]

theorem traceOK_connect_endpoints {d d' : DevState} (h : TraceOK d d')
    (tn : String) (eips : List String) (lip : String) :
    TraceOK d (connect_endpoints d' tn eips lip) := by
  unfold connect_endpoints
  generalize eips.filter (fun ip_addr => ip_addr ≠ lip) = rs
  induction rs generalizing d' with
  | nil => exact h
  | cons r rs ih => exact ih (traceOK_fdb_append h r tn)

theorem traceOK_remove_virtual_network {d d' : DevState} (inst : Installer)
    (h : TraceOK d d') (n : String) :
    TraceOK d (remove_virtual_network inst d' n).2 := by
  unfold remove_virtual_network
  by_cases hm : n ∈ inst.vnets
  · simp only [if_pos hm]
    exact traceOK_runDev (traceOK_runDev h "virsh" ["net-destroy", n])
      "virsh" ["net-undefine", n]
  · simp only [if_neg hm]
    exact h

theorem traceOK_add_virtual_network {d d' : DevState} (inst : Installer)
    (h : TraceOK d d') (n bn : String) :
    TraceOK d (add_virtual_network inst d' n bn).2 := by
  unfold add_virtual_network
  have h1 := traceOK_runDev h "virsh" ["net-define", "<tmpfile>"]
  have h2 : TraceOK d { runDev d' "virsh" ["net-define", "<tmpfile>"]
      with registry := _ } := h1
  exact traceOK_runDev (traceOK_runDev h2 "virsh" ["net-start", n])
    "virsh" ["net-autostart", n]

/-- `construct_virtual_network` when `_check_conflict` raises: the error
propagates and the machine state is untouched. -/
theorem construct_conflict_eq {inst : Installer} {d : DevState}
    {cfg : NetworkConfig} {e : Err}
    (hc : check_conflict inst cfg.tunnelName cfg.bridgeName = .error e) :
    construct_virtual_network inst d cfg = (.error e, d) := by
  simp only [construct_virtual_network, hc]

/-- `construct_virtual_network` when `_check_conflict` passes but
`_find_underlay` raises: the error propagates with exactly the two
conditional link removals applied. -/
theorem construct_noUnderlay_eq {inst : Installer} {d : DevState}
    {cfg : NetworkConfig} {e : Err}
    (hc : check_conflict inst cfg.tunnelName cfg.bridgeName = .ok ())
    (hf : find_underlay inst cfg.endpointIps = .error e) :
    construct_virtual_network inst d cfg = (.error e, afterRemovals inst d cfg) := by
  simp only [construct_virtual_network, hc, hf, afterRemovals]

/-- `construct_virtual_network` on the success path, as the composition of
its steps. -/
theorem construct_ok_eq {inst : Installer} {d : DevState}
    {cfg : NetworkConfig} {device lip : String}
    (hc : check_conflict inst cfg.tunnelName cfg.bridgeName = .ok ())
    (hf : find_underlay inst cfg.endpointIps = .ok (device, lip)) :
    construct_virtual_network inst d cfg =
      ((Except.ok (buildSteps inst (afterRemovals inst d cfg) cfg device lip).1 :
          Except Err Installer),
        (buildSteps inst (afterRemovals inst d cfg) cfg device lip).2) := by
  simp only [construct_virtual_network, hc, hf, afterRemovals, buildSteps]

theorem traceOK_construct {inst : Installer} (d : DevState)
    (cfg : NetworkConfig) : TraceOK d (construct_virtual_network inst d cfg).2 := by
  have hrem : TraceOK d (afterRemovals inst d cfg) := by
    unfold afterRemovals
    have h0 : TraceOK d
        (if hasIf inst cfg.tunnelName then remove_link d cfg.tunnelName else d) := by
      by_cases ht : hasIf inst cfg.tunnelName
      · simp only [if_pos ht]; exact traceOK_remove_link (traceOK_refl d) _
      · simp only [if_neg ht]; exact traceOK_refl d
    by_cases hb : hasIf inst cfg.bridgeName
    · simp only [if_pos hb]; exact traceOK_remove_link h0 _
    · simp only [if_neg hb]; exact h0
  cases hc : check_conflict inst cfg.tunnelName cfg.bridgeName with
  | error e => rw [construct_conflict_eq hc]; exact traceOK_refl d
  | ok u =>
    obtain ⟨⟩ := u
    cases hf : find_underlay inst cfg.endpointIps with
    | error e => rw [construct_noUnderlay_eq hc hf]; exact hrem
    | ok p =>
      obtain ⟨device, lip⟩ := p
      rw [construct_ok_eq hc hf]
      simp only [buildSteps]
      exact traceOK_add_virtual_network _
        (traceOK_remove_virtual_network inst
          (traceOK_connect_endpoints
            (traceOK_add_new_tunnel hrem _ _ _ _) _ _ _) _) _ _

/-- C9: with the default `timeout=None`, Python's `if timeout and time >
timeout:` is never taken, so `run_cmd` sends no signal at all, polls for as
long as the process runs, and returns only when it exits on its own; and
every external command the reconciliation engine issues (everything in a
`construct_virtual_network` trace beyond what was already there) is invoked
with that default. -/
theorem run_cmd_default_timeout_passive :
    (∀ script : List WaitOutcome,
        (run_cmd_model none script).terminates = 0 ∧
        (run_cmd_model none script).kills = 0 ∧
        ((run_cmd_model none script).outcome = RunOutcome.pending ↔
          ∀ w ∈ script, w = WaitOutcome.expired)) ∧
    (∀ (inst : Installer) (d : DevState) (cfg : NetworkConfig),
        ∀ c ∈ (construct_virtual_network inst d cfg).2.trace,
          c ∈ d.trace ∨ c.timeout = none) :=
  ⟨fun script => waitLoop_none_passive script 0 0 0,
   fun _ d cfg => traceOK_construct d cfg⟩

/-- Witness for C9's per-command part: on a blade with a vxlan interface
`vx9` and no underlay match, the engine issues `ip link del vx9`, and that
command carries the default timeout. -/
theorem run_cmd_default_timeout_passive_witness :
    (⟨"ip", ["link", "del", "vx9"], none⟩ : Cmd) ∈ exVx9Dev.trace ∨
      (⟨"ip", ["link", "del", "vx9"], none⟩ : Cmd).timeout = none :=
  run_cmd_default_timeout_passive.2 (mkInstaller exVx9Dev) exVx9Dev exVx9Cfg
    ⟨"ip", ["link", "del", "vx9"], none⟩ (by decide)

/-! ## Theorems about the Underlay Resolver (`_find_underlay`) -/

/-- The inner loop of `_find_underlay` over one interface's `addr_info` picks
exactly the first enumerated `(name, local)` pair whose address is in
`endpoint_ips`. -/
theorem findLocal_eq_find? (eips : List String) (nm : String) :
    ∀ ais : List AddrInfo,
      (ais.findSome? (fun info =>
          match info.localIp with
          | some a => if a ∈ eips then some a else none
          | none => none)).map (fun a => (nm, a)) =
        (ais.filterMap (fun info => info.localIp.map (fun a => (nm, a)))).find?
          (fun p => decide (p.2 ∈ eips)) := by
  intro ais
  induction ais with
  | nil => simp
  | cons info rest ih =>
    cases hx : info.localIp with
    | none => simpa [List.findSome?_cons, hx] using ih
    | some a =>
      by_cases ha : a ∈ eips
      · simp [List.findSome?_cons, hx, ha]
      · simpa [List.findSome?_cons, hx, ha] using ih

/-- The full scan of `_find_underlay` equals a single first-match search over
the flattened `(interface, local address)` enumeration. -/
theorem underlay_scan_eq (eips : List String) :
    ∀ ls : List Link,
      ls.findSome? (fun l => (findLocal eips l).map (fun a => (l.name, a))) =
        (addrPairs ls).find? (fun p => decide (p.2 ∈ eips)) := by
  intro ls
  induction ls with
  | nil => simp [addrPairs]
  | cons l rest ih =>
    rw [addrPairs, List.find?_append, List.findSome?_cons, ← ih,
      ← findLocal_eq_find? eips l.name l.addr_info]
    unfold findLocal
    cases (l.addr_info.findSome? (fun info =>
        match info.localIp with
        | some a => if a ∈ eips then some a else none
        | none => none)) with
    | none => simp
    | some a => simp

/-- C5: `_find_underlay` returns the first `(device_name, local_ip)` pair, in
snapshot enumeration order over interfaces and then over each interface's
address records, whose address is a member of `endpoint_ips`; it raises the
no-underlay `ContextualError` exactly when no enumerated local address is a
member of `endpoint_ips`, and in particular always when `endpoint_ips` is
empty. -/
theorem underlay_resolver_first_match :
    ∀ (inst : Installer) (eips : List String),
      (find_underlay inst eips =
        match (addrPairs inst.interfaces).find? (fun p => decide (p.2 ∈ eips)) with
        | some p => Except.ok p
        | none => Except.error (Err.noUnderlay eips)) ∧
      (find_underlay inst eips = .error (.noUnderlay eips) ↔
        ∀ p ∈ addrPairs inst.interfaces, p.2 ∉ eips) ∧
      find_underlay inst [] = .error (.noUnderlay []) := by
  intro inst eips
  have hmain : find_underlay inst eips =
      match (addrPairs inst.interfaces).find? (fun p => decide (p.2 ∈ eips)) with
      | some p => Except.ok p
      | none => Except.error (Err.noUnderlay eips) := by
    unfold find_underlay
    rw [underlay_scan_eq]
  have herr : find_underlay inst eips = .error (.noUnderlay eips) ↔
      ∀ p ∈ addrPairs inst.interfaces, p.2 ∉ eips := by
    rw [hmain]
    cases hfind : (addrPairs inst.interfaces).find? (fun p => decide (p.2 ∈ eips)) with
    | none =>
      rw [List.find?_eq_none] at hfind
      simpa using hfind
    | some p =>
      have hp := List.find?_some hfind
      have hmem := List.mem_of_find?_eq_some hfind
      simp only [decide_eq_true_eq] at hp
      constructor
      · intro h; exact absurd h (by simp)
      · intro h; exact absurd hp (h p hmem)
  have hempty : find_underlay inst [] = .error (.noUnderlay []) := by
    have h := (underlay_scan_eq [] inst.interfaces)
    unfold find_underlay
    rw [h]
    have : (addrPairs inst.interfaces).find? (fun p => decide (p.2 ∈ ([] : List String))) = none := by
      rw [List.find?_eq_none]; intro x _; simp
    rw [this]
  exact ⟨hmain, herr, hempty⟩

/-! ## Theorems about the Conflict Checker (`_check_conflict`) -/

/-- C2: `_check_conflict` succeeds exactly when each of the two configured
names is absent or carries the expected kind (vxlan for the tunnel name,
bridge for the bridge name); and whenever it raises, the raised error is one
of the two name-conflict errors and `construct_virtual_network` returns it
with the machine state — links, registry and command trace — completely
untouched. -/
theorem conflict_checker_guards_reconciliation :
    ∀ (inst : Installer) (d : DevState) (cfg : NetworkConfig),
      (check_conflict inst cfg.tunnelName cfg.bridgeName = .ok () ↔
        ((hasIf inst cfg.tunnelName = false ∨ inVxlans inst cfg.tunnelName = true) ∧
         (hasIf inst cfg.bridgeName = false ∨ inBridges inst cfg.bridgeName = true))) ∧
      (∀ e, check_conflict inst cfg.tunnelName cfg.bridgeName = .error e →
        e.isNameConflict = true ∧
        construct_virtual_network inst d cfg = (.error e, d)) := by
  intro inst d cfg
  constructor
  · cases hA : hasIf inst cfg.tunnelName <;>
      cases hB : inVxlans inst cfg.tunnelName <;>
      cases hC : hasIf inst cfg.bridgeName <;>
      cases hD : inBridges inst cfg.bridgeName <;>
      simp [check_conflict, hA, hB, hC, hD]
  · intro e he
    refine ⟨?_, construct_conflict_eq he⟩
    unfold check_conflict at he
    split at he
    · cases he; rfl
    · split at he
      · cases he; rfl
      · simp at he

/-- Witness for C2: a plain (non-vxlan) interface `eth0` occupying the
configured tunnel name makes the pass fail with the tunnel name-conflict
error and leave the machine state untouched. -/
theorem conflict_checker_guards_reconciliation_witness :
    Err.isNameConflict (.tunnelConflict "eth0") = true ∧
    construct_virtual_network (mkInstaller exConflictDev) exConflictDev exConflictCfg =
      (.error (.tunnelConflict "eth0"), exConflictDev) :=
  (conflict_checker_guards_reconciliation
      (mkInstaller exConflictDev) exConflictDev exConflictCfg).2
    (.tunnelConflict "eth0") (by decide)

/-! ## Theorems about where `NoUnderlayError` leaves the machine (C3) -/

/-- C3 counterexample: on a blade with an existing vxlan interface named like
the configured tunnel and an `endpoint_ips` list matching no local address,
the pass does fail with the no-underlay error, but only after `ip link del
vx0` has already mutated the device state — contradicting the claim that no
mutating step (including removal of an existing link named `tunnel_name`)
runs before that failure. -/
theorem underlay_failure_after_mutation_cex :
    (reconcile_pass exVx0Dev exVx0Cfg).1 = .error (.noUnderlay ["10.0.0.9"]) ∧
    (reconcile_pass exVx0Dev exVx0Cfg).2.links = [] ∧
    (reconcile_pass exVx0Dev exVx0Cfg).2 ≠ exVx0Dev := by
  decide

/-- C3 (amended): when no local address of any snapshot interface lies in
`endpoint_ips` and the conflict check passes, the pass fails with the
no-underlay error; the only mutations that may precede the failure are the
unconditional removals of pre-existing links named `tunnel_name` /
`bridge_name` (the registry is untouched, and if neither name exists as a
device the machine state is completely unchanged). -/
theorem underlay_failure_mutation_bound :
    ∀ (d : DevState) (cfg : NetworkConfig),
      (∀ l ∈ d.links, findLocal cfg.endpointIps l = none) →
      check_conflict (mkInstaller d) cfg.tunnelName cfg.bridgeName = .ok () →
      (reconcile_pass d cfg =
          (.error (.noUnderlay cfg.endpointIps), afterRemovals (mkInstaller d) d cfg) ∧
        (afterRemovals (mkInstaller d) d cfg).registry = d.registry ∧
        (hasIf (mkInstaller d) cfg.tunnelName = false →
          hasIf (mkInstaller d) cfg.bridgeName = false →
          afterRemovals (mkInstaller d) d cfg = d)) := by
  intro d cfg hno hchk
  have hf : find_underlay (mkInstaller d) cfg.endpointIps =
      .error (.noUnderlay cfg.endpointIps) := by
    unfold find_underlay
    have : (mkInstaller d).interfaces.findSome?
        (fun l => (findLocal cfg.endpointIps l).map (fun a => (l.name, a))) = none := by
      rw [List.findSome?_eq_none_iff]
      intro l hl
      rw [hno l hl]
      rfl
    rw [this]
  refine ⟨construct_noUnderlay_eq hchk hf, ?_, ?_⟩
  · unfold afterRemovals
    by_cases ht : hasIf (mkInstaller d) cfg.tunnelName <;>
      by_cases hb : hasIf (mkInstaller d) cfg.bridgeName <;>
      simp [ht, hb, remove_link, runDev]
  · intro ht hb
    unfold afterRemovals
    simp [ht, hb]

/-- Witness for C3 (amended): endpoint IPs `["10.0.0.1"]` versus a blade
whose only address is `192.168.1.5`, with no conflicting names present. -/
theorem underlay_failure_mutation_bound_witness :
    reconcile_pass exEth0Dev exEth0Cfg =
        (.error (.noUnderlay ["10.0.0.1"]),
          afterRemovals (mkInstaller exEth0Dev) exEth0Dev exEth0Cfg) ∧
      (afterRemovals (mkInstaller exEth0Dev) exEth0Dev exEth0Cfg).registry
        = exEth0Dev.registry ∧
      (hasIf (mkInstaller exEth0Dev) exEth0Cfg.tunnelName = false →
        hasIf (mkInstaller exEth0Dev) exEth0Cfg.bridgeName = false →
        afterRemovals (mkInstaller exEth0Dev) exEth0Dev exEth0Cfg = exEth0Dev) :=
  underlay_failure_mutation_bound exEth0Dev exEth0Cfg (by decide) (by decide)

/-! ## Theorems about the Mesh Connector (`connect_endpoints`) -/

/-- `modifyFirst` commutes with `find?` when the modification preserves the
search predicate. -/
theorem find?_modifyFirst (p : Link → Bool) (f : Link → Link)
    (hp : ∀ l, p l = true → p (f l) = true) :
    ∀ ls : List Link, (modifyFirst p f ls).find? p = (ls.find? p).map f := by
  intro ls
  induction ls with
  | nil => simp [modifyFirst]
  | cons l rest ih =>
    by_cases h : p l = true
    · rw [modifyFirst, if_pos h, List.find?_cons_of_pos _ (hp l h),
        List.find?_cons_of_pos _ h]
      rfl
    · rw [modifyFirst, if_neg h, List.find?_cons_of_neg _ h,
        List.find?_cons_of_neg _ h, ih]

/-- One `bridge fdb append` extends the tunnel's destination list by exactly
the appended address (and keeps the tunnel present). -/
theorem fdbOf_fdb_append (d : DevState) (ip_addr tn : String)
    (h : (d.links.find? (fun l => l.name == tn)).isSome = true) :
    fdbOf (fdb_append d ip_addr tn) tn = fdbOf d tn ++ [ip_addr] ∧
    ((fdb_append d ip_addr tn).links.find? (fun l => l.name == tn)).isSome = true := by
  have hp : ∀ l : Link, (l.name == tn) = true →
      (((fun l : Link => { l with fdb_dsts := l.fdb_dsts ++ [ip_addr] }) l).name == tn) = true :=
    fun l hl => hl
  have hfind : (fdb_append d ip_addr tn).links.find? (fun l => l.name == tn)
      = (d.links.find? (fun l => l.name == tn)).map
          (fun l => { l with fdb_dsts := l.fdb_dsts ++ [ip_addr] }) := by
    unfold fdb_append runDev
    exact find?_modifyFirst _ _ hp d.links
  cases hf : d.links.find? (fun l => l.name == tn) with
  | none => rw [hf] at h; simp at h
  | some l =>
    constructor
    · unfold fdbOf
      rw [hfind, hf]
      simp
    · rw [hfind, hf]
      simp

/-- Folding `fdb_append` over a list of addresses appends them, in order, to
the tunnel's destination list. -/
theorem fdbOf_connect_fold (tn : String) :
    ∀ (rs : List String) (d : DevState),
      (d.links.find? (fun l => l.name == tn)).isSome = true →
      fdbOf (rs.foldl (fun d ip_addr => fdb_append d ip_addr tn) d) tn
        = fdbOf d tn ++ rs := by
  intro rs
  induction rs with
  | nil => intro d _; simp
  | cons r rest ih =>
    intro d h
    obtain ⟨h1, h2⟩ := fdbOf_fdb_append d r tn h
    rw [List.foldl_cons, ih _ h2, h1]
    simp

/-- C1 counterexample: a remote IP listed twice in `endpoint_ips` yields two
`bridge fdb append` operations and hence two forwarding-database entries on
the tunnel, not one: with `endpoint_ips = ["10.0.0.1", "10.0.0.1",
"10.0.0.2"]` and local IP `10.0.0.2`, the programmed destination list is
`["10.0.0.1", "10.0.0.1"]`. -/
theorem mesh_duplicate_entry_cex :
    fdbOf (connect_endpoints exMeshDev "vx0"
        ["10.0.0.1", "10.0.0.1", "10.0.0.2"] "10.0.0.2") "vx0"
      = ["10.0.0.1", "10.0.0.1"] ∧
    ¬ (fdbOf (connect_endpoints exMeshDev "vx0"
        ["10.0.0.1", "10.0.0.1", "10.0.0.2"] "10.0.0.2") "vx0").count "10.0.0.1" = 1 := by
  decide

/-- C1 (amended): after `connect_endpoints` on a fresh tunnel device, the
forwarding-database destination list is `endpoint_ips` with every occurrence
of the local IP removed, in order.  Its underlying set therefore equals
`endpoint_ips` minus the local IP (order-independent), and no entry is ever
programmed for the local IP; but a remote IP occurring n times in
`endpoint_ips` is programmed once per occurrence (n entries), not once. -/
theorem mesh_connector_fdb_set :
    ∀ (d : DevState) (tn lip : String) (eips : List String),
      (d.links.find? (fun l => l.name == tn)).isSome = true →
      fdbOf d tn = [] →
      lip ∈ eips →
      (fdbOf (connect_endpoints d tn eips lip) tn
          = eips.filter (fun ip_addr => ip_addr ≠ lip) ∧
        (∀ ip_addr, ip_addr ∈ fdbOf (connect_endpoints d tn eips lip) tn ↔
          (ip_addr ∈ eips ∧ ip_addr ≠ lip)) ∧
        lip ∉ fdbOf (connect_endpoints d tn eips lip) tn ∧
        (∀ ip_addr, ip_addr ≠ lip →
          (fdbOf (connect_endpoints d tn eips lip) tn).count ip_addr
            = eips.count ip_addr)) := by
  intro d tn lip eips hsome hfresh _
  have hmain : fdbOf (connect_endpoints d tn eips lip) tn
      = eips.filter (fun ip_addr => ip_addr ≠ lip) := by
    unfold connect_endpoints
    rw [fdbOf_connect_fold tn _ d hsome, hfresh]
    simp
  refine ⟨hmain, ?_, ?_, ?_⟩
  · intro ip_addr
    rw [hmain]
    simp [List.mem_filter]
  · rw [hmain]
    simp [List.mem_filter]
  · intro ip_addr hip
    rw [hmain]
    exact List.count_filter (by simpa using hip)

/-- Witness for C1 (amended): the scenario of the counterexample, through the
general theorem. -/
theorem mesh_connector_fdb_set_witness :
    fdbOf (connect_endpoints exMeshDev "vx0"
        ["10.0.0.1", "10.0.0.1", "10.0.0.2"] "10.0.0.2") "vx0"
      = (["10.0.0.1", "10.0.0.1", "10.0.0.2"].filter
          (fun ip_addr => ip_addr ≠ "10.0.0.2")) :=
  (mesh_connector_fdb_set exMeshDev "vx0" "10.0.0.2"
      ["10.0.0.1", "10.0.0.1", "10.0.0.2"]
      (by decide) (by decide) (by decide)).1

/-! ## Theorems about the Local Network State Reader (`_get_interfaces`) -/

/-- Every error escaping the fdb folding loop is an unclassified `KeyError`. -/
theorem foldFdb_error_unclassified :
    ∀ (es : List FdbEntry) (ifaces : List Link) (e : RaisedError),
      foldFdb ifaces es = .error e → ∃ k, e = .unclassified (.keyError k) := by
  intro es
  induction es with
  | nil => intro ifaces e h; simp [foldFdb] at h
  | cons entry rest ih =>
    intro ifaces e h
    cases hd : entry.dst with
    | none =>
      rw [foldFdb, hd] at h
      exact ih _ _ h
    | some dst =>
      rw [foldFdb, hd] at h
      simp only [] at h
      by_cases hk : (ifaces.find? (fun l => l.name == entry.ifname)).isSome = true
      · rw [if_pos hk] at h
        exact ih _ _ h
      · rw [if_neg hk] at h
        cases h
        exact ⟨entry.ifname, rfl⟩

/-- C7 counterexample: malformed JSON from the interface query makes
`_get_interfaces` raise a bare `json.JSONDecodeError`, and an fdb entry
naming the unknown interface `vx1` makes it raise a bare `KeyError`; neither
is the application's classified error type, and `entrypoint` lets such an
error escape unhandled instead of reporting it. -/
theorem state_reader_unclassified_cex :
    get_interfaces .badJson (.parsed [])
        = .error (.unclassified .jsonDecodeError) ∧
    get_interfaces (.parsed [{ ifname := "eth0" }])
        (.parsed [⟨"vx1", some "10.0.0.1"⟩])
        = .error (.unclassified (.keyError "vx1")) ∧
    (RaisedError.unclassified .jsonDecodeError).isContextual = false ∧
    (RaisedError.unclassified (.keyError "vx1")).isContextual = false ∧
    entrypoint_model (.error (.unclassified .jsonDecodeError))
        = .escaped .jsonDecodeError := by
  decide

/-- C7 (amended): whenever the Local Network State Reader fails — tooling
unavailable, output that is not valid JSON, or a forwarding-database entry
naming an interface absent from the interface listing — the raised error is
an unclassified Python exception (`OSError`, `json.JSONDecodeError` or
`KeyError`), never the application's classified `ContextualError`, and
`entrypoint` lets it escape rather than reporting it. -/
theorem state_reader_unclassified_errors :
    ∀ (ifq : QueryResult (List IfaceJson)) (fdbq : QueryResult (List FdbEntry))
      (e : RaisedError),
      get_interfaces ifq fdbq = .error e →
      ∃ p, e = RaisedError.unclassified p ∧
        e.isContextual = false ∧
        entrypoint_model (.error e) = .escaped p := by
  intro ifq fdbq e h
  have hshape : ∃ p, e = RaisedError.unclassified p := by
    cases ifq with
    | noTool => cases h; exact ⟨.osError, rfl⟩
    | badJson => cases h; exact ⟨.jsonDecodeError, rfl⟩
    | parsed if_data =>
      cases fdbq with
      | noTool => cases h; exact ⟨.osError, rfl⟩
      | badJson => cases h; exact ⟨.jsonDecodeError, rfl⟩
      | parsed fdb_data =>
        obtain ⟨k, hk⟩ := foldFdb_error_unclassified fdb_data (if_data.map mkIface) e h
        exact ⟨.keyError k, hk⟩
  obtain ⟨p, hp⟩ := hshape
  exact ⟨p, hp, by rw [hp]; rfl, by rw [hp]; rfl⟩

/-- Witness for C7 (amended): the malformed-JSON failure. -/
theorem state_reader_unclassified_errors_witness :
    ∃ p, RaisedError.unclassified PyError.jsonDecodeError
        = RaisedError.unclassified p ∧
      (RaisedError.unclassified PyError.jsonDecodeError).isContextual = false ∧
      entrypoint_model (.error (.unclassified .jsonDecodeError)) = .escaped p :=
  state_reader_unclassified_errors .badJson (.parsed [])
    (.unclassified .jsonDecodeError) (by decide)

/-! ## Theorems about the `main` network phase (C8) -/

/-- Erasing a registry entry by name erases exactly that name from the name
listing. -/
theorem registryNames_eraseReg (n : String) :
    ∀ rs : List RegNet,
      (eraseReg n rs).map (fun r => r.name) = (rs.map (fun r => r.name)).erase n := by
  intro rs
  induction rs with
  | nil => simp [eraseReg]
  | cons r rest ih =>
    rw [eraseReg, List.map_cons, List.erase_cons]
    by_cases h : (r.name == n) = true
    · rw [if_pos h, if_pos h]
    · rw [if_neg h, if_neg h, List.map_cons, ih]

/-- C8: every per-blade run removes the virtualization-manager registration
named `"default"` — stopping (`net-destroy`) and undefining it when the
registry snapshot contains it, doing nothing at all when it does not — before
constructing any configured network, and does so even when no networks are
declared. -/
theorem main_removes_default_first :
    ∀ (d : DevState) (networks : List NetworkConfig),
      (d.registry.map (fun r => r.name)).Nodup →
      (main_networks d networks =
          run_networks (remove_virtual_network (mkInstaller d) d "default").1
            (remove_virtual_network (mkInstaller d) d "default").2 networks ∧
        main_networks d [] =
          (.ok (remove_virtual_network (mkInstaller d) d "default").1,
            (remove_virtual_network (mkInstaller d) d "default").2) ∧
        "default" ∉ (remove_virtual_network (mkInstaller d) d "default").1.vnets ∧
        (remove_virtual_network (mkInstaller d) d "default").2.links = d.links ∧
        ("default" ∈ registryNames d →
          (remove_virtual_network (mkInstaller d) d "default").2.trace
            = d.trace ++ [⟨"virsh", ["net-destroy", "default"], none⟩,
                ⟨"virsh", ["net-undefine", "default"], none⟩] ∧
          "default" ∉ registryNames (remove_virtual_network (mkInstaller d) d "default").2) ∧
        ("default" ∉ registryNames d →
          remove_virtual_network (mkInstaller d) d "default" = (mkInstaller d, d))) := by
  intro d networks hnd
  have hvnets : (mkInstaller d).vnets = registryNames d := rfl
  by_cases hm : "default" ∈ registryNames d
  · have hm' : "default" ∈ (mkInstaller d).vnets := hm
    refine ⟨rfl, rfl, ?_, ?_, ?_, ?_⟩
    · unfold remove_virtual_network
      rw [if_pos hm']
      exact List.Nodup.not_mem_erase hnd
    · unfold remove_virtual_network
      rw [if_pos hm']
      simp [runDev]
    · intro _
      constructor
      · unfold remove_virtual_network
        rw [if_pos hm']
        simp [runDev]
      · unfold remove_virtual_network
        rw [if_pos hm']
        unfold registryNames
        simp only [runDev]
        rw [registryNames_eraseReg]
        exact List.Nodup.not_mem_erase hnd
    · intro hx
      exact absurd hm hx
  · have hm' : "default" ∉ (mkInstaller d).vnets := hm
    refine ⟨rfl, rfl, ?_, ?_, ?_, ?_⟩
    · unfold remove_virtual_network
      rw [if_neg hm']
      exact hm'
    · unfold remove_virtual_network
      rw [if_neg hm']
    · intro hx
      exact absurd hx hm
    · intro _
      unfold remove_virtual_network
      rw [if_neg hm']

/-- Witness for C8: a blade with only the `default` network registered and no
networks configured. -/
theorem main_removes_default_first_witness :
    main_networks exMainDev [] =
        run_networks (remove_virtual_network (mkInstaller exMainDev) exMainDev "default").1
          (remove_virtual_network (mkInstaller exMainDev) exMainDev "default").2 [] ∧
      "default" ∉ (remove_virtual_network (mkInstaller exMainDev) exMainDev "default").1.vnets :=
  ⟨(main_removes_default_first exMainDev [] (by decide)).1,
   (main_removes_default_first exMainDev [] (by decide)).2.2.1⟩

/-! ## Theorems about the registered-network list invariant (C10) -/

/-- The effect of the registrar steps of a successful construction on
`self.vnets`: the network name is first removed (a no-op removal when
absent) and then appended. -/
theorem buildSteps_vnets (inst : Installer) (d : DevState) (cfg : NetworkConfig)
    (device lip : String) :
    (buildSteps inst d cfg device lip).1.vnets
      = inst.vnets.erase cfg.networkName ++ [cfg.networkName] := by
  unfold buildSteps add_virtual_network remove_virtual_network
  by_cases h : cfg.networkName ∈ inst.vnets
  · simp [h]
  · simp [h, List.erase_of_not_mem h]

/-- A successful `construct_virtual_network` leaves `self.vnets` equal to the
old list with the network name erased and then re-appended. -/
theorem construct_ok_vnets {inst : Installer} {d : DevState}
    {cfg : NetworkConfig} {inst' : Installer} {d' : DevState}
    (h : construct_virtual_network inst d cfg = (.ok inst', d')) :
    inst'.vnets = inst.vnets.erase cfg.networkName ++ [cfg.networkName] := by
  cases hc : check_conflict inst cfg.tunnelName cfg.bridgeName with
  | error e => rw [construct_conflict_eq hc] at h; simp at h
  | ok u =>
    obtain ⟨⟩ := u
    cases hf : find_underlay inst cfg.endpointIps with
    | error e => rw [construct_noUnderlay_eq hc hf] at h; simp at h
    | ok p =>
      obtain ⟨device, lip⟩ := p
      rw [construct_ok_eq hc hf] at h
      have hinst : inst'
          = (buildSteps inst (afterRemovals inst d cfg) cfg device lip).1 := by
        have := congrArg Prod.fst h
        simp at this
        exact this.symm
      rw [hinst, buildSteps_vnets]

/-- C10: if `self.vnets` holds no duplicate names, every sequence of
`remove_virtual_network` / `construct_virtual_network` operations preserves
that, and a successful `construct_virtual_network` leaves its network name
occurring exactly once (removal always precedes re-addition). -/
theorem vnets_nodup_invariant :
    (∀ (inst : Installer) (d : DevState) (ops : List NetOp),
        inst.vnets.Nodup → (applyOps inst d ops).1.vnets.Nodup) ∧
    (∀ (inst : Installer) (d : DevState) (cfg : NetworkConfig)
        (inst' : Installer) (d' : DevState),
        inst.vnets.Nodup →
        construct_virtual_network inst d cfg = (.ok inst', d') →
        inst'.vnets.count cfg.networkName = 1) := by
  have hstep : ∀ (inst : Installer) (d : DevState) (op : NetOp),
      inst.vnets.Nodup → (applyOp inst d op).1.vnets.Nodup := by
    intro inst d op h
    cases op with
    | rem n =>
      show (remove_virtual_network inst d n).1.vnets.Nodup
      unfold remove_virtual_network
      by_cases hm : n ∈ inst.vnets
      · rw [if_pos hm]
        exact h.erase n
      · rw [if_neg hm]
        exact h
    | cons cfg =>
      cases hr : (construct_virtual_network inst d cfg).1 with
      | error e => simpa only [applyOp, hr] using h
      | ok inst' =>
        simp only [applyOp, hr]
        have hfull : construct_virtual_network inst d cfg
            = (.ok inst', (construct_virtual_network inst d cfg).2) := by
          rw [← hr]
        rw [construct_ok_vnets hfull]
        rw [List.nodup_append]
        exact ⟨h.erase _, List.nodup_singleton _,
          by
            intro a ha hb
            rw [List.mem_singleton] at hb
            subst hb
            exact List.Nodup.not_mem_erase h ha⟩
  constructor
  · intro inst d ops
    induction ops generalizing inst d with
    | nil => intro h; exact h
    | cons op rest ih =>
      intro h
      exact ih _ _ (hstep inst d op h)
  · intro inst d cfg inst' d' hnd hok
    rw [construct_ok_vnets hok, List.count_append]
    have h1 : (inst.vnets.erase cfg.networkName).count cfg.networkName = 0 := by
      rw [List.count_erase_self]
      have := List.nodup_iff_count_le_one.1 hnd cfg.networkName
      omega
    rw [h1]
    simp

/-- Witness for C10: constructing `net1` over a stale registration of the same
name leaves exactly one occurrence; the operation sequence preserves
duplicate-freeness. -/
theorem vnets_nodup_invariant_witness :
    (Installer.mk exRunDev.links ["net1"]).vnets.count exRunCfg.networkName = 1 ∧
    (applyOps (mkInstaller exRunDev) exRunDev [NetOp.cons exRunCfg]).1.vnets.Nodup :=
  ⟨vnets_nodup_invariant.2 (mkInstaller exRunDev) exRunDev exRunCfg
      (Installer.mk exRunDev.links ["net1"])
      (construct_virtual_network (mkInstaller exRunDev) exRunDev exRunCfg).2
      (by decide) (by decide),
   vnets_nodup_invariant.1 (mkInstaller exRunDev) exRunDev
      [NetOp.cons exRunCfg] (by decide)⟩

/-! ## Closed form of one successful reconciliation pass (toward C6) -/

/-- `modifyFirst` passes over a prefix in which nothing matches. -/
theorem modifyFirst_append_none (p : Link → Bool) (f : Link → Link) :
    ∀ (xs ys : List Link), (∀ x ∈ xs, p x = false) →
      modifyFirst p f (xs ++ ys) = xs ++ modifyFirst p f ys := by
  intro xs ys h
  induction xs with
  | nil => simp [List.nil_append]
  | cons x rest ih =>
    have hx : ¬ (p x = true) := by simp [h x (List.mem_cons_self x rest)]
    rw [List.cons_append, modifyFirst, if_neg hx,
      ih (fun a ha => h a (List.mem_cons_of_mem _ ha))]
    rfl

/-- Folding `fdb_append` over addresses turns the (unique) tunnel link's
destination list into its old value extended by those addresses, leaving all
other links and the registry alone. -/
theorem foldl_fdb_append_links (tn : String) :
    ∀ (rs : List String) (s : DevState) (xs : List Link) (tun : Link) (ys : List Link),
      s.links = xs ++ tun :: ys →
      (∀ x ∈ xs, (x.name == tn) = false) →
      (tun.name == tn) = true →
      (rs.foldl (fun d ip_addr => fdb_append d ip_addr tn) s).links
          = xs ++ { tun with fdb_dsts := tun.fdb_dsts ++ rs } :: ys ∧
      (rs.foldl (fun d ip_addr => fdb_append d ip_addr tn) s).registry = s.registry := by
  intro rs
  induction rs with
  | nil =>
    intro s xs tun ys hs hxs htun
    refine ⟨?_, rfl⟩
    simpa using hs
  | cons r rest ih =>
    intro s xs tun ys hs hxs htun
    have hstep : (fdb_append s r tn).links
        = xs ++ ({ tun with fdb_dsts := tun.fdb_dsts ++ [r] } :: ys) := by
      have hdef : (fdb_append s r tn).links
          = modifyFirst (fun l => l.name == tn)
              (fun l => { l with fdb_dsts := l.fdb_dsts ++ [r] }) s.links := rfl
      rw [hdef, hs, modifyFirst_append_none _ _ xs (tun :: ys) hxs,
        modifyFirst, if_pos htun]
    have hreg : (fdb_append s r tn).registry = s.registry := rfl
    have hrec := ih (fdb_append s r tn) xs
      { tun with fdb_dsts := tun.fdb_dsts ++ [r] } ys hstep hxs htun
    rw [List.foldl_cons]
    refine ⟨?_, by rw [hrec.2, hreg]⟩
    rw [hrec.1]
    simp [List.append_assoc]

/-- `remove_link` only filters the link list. -/
theorem remove_link_links (d : DevState) (n : String) :
    (remove_link d n).links = d.links.filter (fun l => decide (l.name ≠ n)) := rfl

/-- `remove_link` does not touch the registry. -/
theorem remove_link_registry (d : DevState) (n : String) :
    (remove_link d n).registry = d.registry := rfl

/-- A name the snapshot does not know is carried by no link at all. -/
theorem hasIf_false_forall {d : DevState} {n : String}
    (h : hasIf (mkInstaller d) n = false) :
    ∀ l ∈ d.links, decide (l.name ≠ n) = true := by
  intro l hl
  unfold hasIf at h
  cases hfind : (mkInstaller d).interfaces.find? (fun l => l.name == n) with
  | some x => rw [hfind] at h; simp at h
  | none =>
    have := List.find?_eq_none.1 hfind l hl
    simpa using this

/-- Closed form of the two conditional link removals of
`construct_virtual_network`: whatever the snapshot membership tests say, the
surviving links are exactly those named neither `tunnel_name` nor
`bridge_name`, and the registry is untouched. -/
theorem afterRemovals_closed (d : DevState) (cfg : NetworkConfig) :
    (afterRemovals (mkInstaller d) d cfg).links
        = d.links.filter (fun l =>
            decide (l.name ≠ cfg.bridgeName) && decide (l.name ≠ cfg.tunnelName)) ∧
    (afterRemovals (mkInstaller d) d cfg).registry = d.registry := by
  unfold afterRemovals
  by_cases ht : hasIf (mkInstaller d) cfg.tunnelName <;>
    by_cases hb : hasIf (mkInstaller d) cfg.bridgeName
  · rw [if_pos ht, if_pos hb]
    refine ⟨?_, rfl⟩
    rw [remove_link_links, remove_link_links, List.filter_filter]
  · rw [if_pos ht, if_neg hb]
    refine ⟨?_, rfl⟩
    rw [remove_link_links]
    have hb' : hasIf (mkInstaller d) cfg.bridgeName = false := by simpa using hb
    refine List.filter_congr ?_
    intro l hl
    rw [hasIf_false_forall hb' l hl, Bool.true_and]
  · rw [if_neg ht, if_pos hb]
    refine ⟨?_, rfl⟩
    rw [remove_link_links]
    have ht' : hasIf (mkInstaller d) cfg.tunnelName = false := by simpa using ht
    refine List.filter_congr ?_
    intro l hl
    rw [hasIf_false_forall ht' l hl, Bool.and_true]
  · rw [if_neg ht, if_neg hb]
    have ht' : hasIf (mkInstaller d) cfg.tunnelName = false := by simpa using ht
    have hb' : hasIf (mkInstaller d) cfg.bridgeName = false := by simpa using hb
    refine ⟨(List.filter_eq_self.2 ?_).symm, rfl⟩
    intro l hl
    rw [hasIf_false_forall ht' l hl, hasIf_false_forall hb' l hl]
    rfl

/-- Neither registrar step touches the link list. -/
theorem remove_virtual_network_links (i : Installer) (x : DevState) (n : String) :
    (remove_virtual_network i x n).2.links = x.links := by
  unfold remove_virtual_network
  by_cases hm : n ∈ i.vnets
  · rw [if_pos hm]; rfl
  · rw [if_neg hm]


/-- `add_virtual_network` does not touch the link list. -/
theorem add_virtual_network_links (i : Installer) (x : DevState) (n bnm : String) :
    (add_virtual_network i x n bnm).2.links = x.links := rfl

/-- `connect_endpoints` does not touch the registry. -/
theorem connect_endpoints_registry (x : DevState) (tn : String)
    (eips : List String) (lip : String) :
    (connect_endpoints x tn eips lip).registry = x.registry := by
  unfold connect_endpoints
  generalize eips.filter (fun ip_addr => ip_addr ≠ lip) = rs
  induction rs generalizing x with
  | nil => rfl
  | cons r rest ih =>
    rw [List.foldl_cons]
    exact ih (fdb_append x r tn)

/-- The link list a successful build produces: the input links followed by
the fully populated tunnel link and the fresh bridge link. -/
theorem buildSteps_links (inst : Installer) (s : DevState) (cfg : NetworkConfig)
    (device lip : String)
    (h : ∀ l ∈ s.links, (l.name == cfg.tunnelName) = false) :
    (buildSteps inst s cfg device lip).2.links
      = s.links ++ [tunnelLink cfg device lip, bridgeLink cfg] := by
  have htun : (add_new_tunnel s cfg.tunnelName cfg.bridgeName cfg.vxlanId device).links
      = s.links ++
        [{ name := cfg.tunnelName, info_kind := some "vxlan",
           vni := cfg.vxlanId, dev := device, master := some cfg.bridgeName },
         { name := cfg.bridgeName, info_kind := some "bridge" }] := by
    have hdef : (add_new_tunnel s cfg.tunnelName cfg.bridgeName cfg.vxlanId device).links
        = modifyFirst (fun l => l.name == cfg.tunnelName)
            (fun l => { l with master := some cfg.bridgeName })
            ((s.links ++ [{ name := cfg.tunnelName, info_kind := some "vxlan",
                            vni := cfg.vxlanId, dev := device }])
              ++ [{ name := cfg.bridgeName, info_kind := some "bridge" }]) := rfl
    rw [hdef, List.append_assoc, modifyFirst_append_none _ _ _ _ h,
      List.singleton_append, modifyFirst, if_pos (by simp)]
  have hconn := foldl_fdb_append_links cfg.tunnelName
    (cfg.endpointIps.filter (fun ip_addr => ip_addr ≠ lip))
    (add_new_tunnel s cfg.tunnelName cfg.bridgeName cfg.vxlanId device)
    s.links
    { name := cfg.tunnelName, info_kind := some "vxlan",
      vni := cfg.vxlanId, dev := device, master := some cfg.bridgeName }
    [{ name := cfg.bridgeName, info_kind := some "bridge" }]
    htun h (by simp)
  show (add_virtual_network _ _ _ _).2.links = _
  rw [add_virtual_network_links, remove_virtual_network_links]
  show (connect_endpoints _ cfg.tunnelName cfg.endpointIps lip).links = _
  unfold connect_endpoints
  rw [hconn.1]
  rfl

/-- The registry a successful build produces: the (conditional) stale-entry
removal followed by the new binding of `network_name` to `bridge_name`. -/
theorem buildSteps_registry (inst : Installer) (s : DevState) (cfg : NetworkConfig)
    (device lip : String) :
    (buildSteps inst s cfg device lip).2.registry
      = (if cfg.networkName ∈ inst.vnets then eraseReg cfg.networkName s.registry
          else s.registry) ++ [⟨cfg.networkName, cfg.bridgeName⟩] := by
  have haddt : (add_new_tunnel s cfg.tunnelName cfg.bridgeName cfg.vxlanId device).registry
      = s.registry := rfl
  show (add_virtual_network _ _ _ _).2.registry = _
  unfold add_virtual_network
  simp only [runDev]
  unfold remove_virtual_network
  by_cases hm : cfg.networkName ∈ inst.vnets
  · rw [if_pos hm]
    simp only [runDev]
    rw [if_pos hm]
    have := connect_endpoints_registry
      (add_new_tunnel s cfg.tunnelName cfg.bridgeName cfg.vxlanId device)
      cfg.tunnelName cfg.endpointIps lip
    rw [this, haddt]
  · rw [if_neg hm]
    simp only [runDev]
    rw [if_neg hm]
    have := connect_endpoints_registry
      (add_new_tunnel s cfg.tunnelName cfg.bridgeName cfg.vxlanId device)
      cfg.tunnelName cfg.endpointIps lip
    rw [this, haddt]

/-- `eraseReg` of an absent name is the identity. -/
theorem eraseReg_of_not_mem (n : String) :
    ∀ rs : List RegNet, n ∉ rs.map (fun r => r.name) → eraseReg n rs = rs := by
  intro rs
  induction rs with
  | nil => intro _; rfl
  | cons r rest ih =>
    intro h
    rw [List.map_cons, List.mem_cons] at h
    push_neg at h
    rw [eraseReg, if_neg (by simpa using fun he => h.1 he.symm), ih h.2]

/-- Closed form of one successful reconciliation pass: the pass succeeds and
produces exactly the filtered old links followed by the rebuilt tunnel and
bridge, and the old registry with the stale `network_name` entry replaced by
a fresh binding to `bridge_name`. -/
theorem pass_ok_netState (d : DevState) (cfg : NetworkConfig) (device lip : String)
    (hc : check_conflict (mkInstaller d) cfg.tunnelName cfg.bridgeName = .ok ())
    (hf : find_underlay (mkInstaller d) cfg.endpointIps = .ok (device, lip)) :
    (reconcile_pass d cfg).1
        = .ok (buildSteps (mkInstaller d) (afterRemovals (mkInstaller d) d cfg) cfg device lip).1 ∧
    (reconcile_pass d cfg).2.links
        = d.links.filter (fun l =>
            decide (l.name ≠ cfg.bridgeName) && decide (l.name ≠ cfg.tunnelName))
          ++ [tunnelLink cfg device lip, bridgeLink cfg] ∧
    (reconcile_pass d cfg).2.registry
        = eraseReg cfg.networkName d.registry ++ [⟨cfg.networkName, cfg.bridgeName⟩] := by
  obtain ⟨hl, hr⟩ := afterRemovals_closed d cfg
  have hpre : ∀ l ∈ (afterRemovals (mkInstaller d) d cfg).links,
      (l.name == cfg.tunnelName) = false := by
    intro l hmem
    rw [hl] at hmem
    have hpair := (List.mem_filter.1 hmem).2
    rw [Bool.and_eq_true, decide_eq_true_eq, decide_eq_true_eq] at hpair
    simpa using hpair.2
  unfold reconcile_pass
  rw [construct_ok_eq hc hf]
  refine ⟨rfl, ?_, ?_⟩
  · show (buildSteps _ _ _ _ _).2.links = _
    rw [buildSteps_links _ _ _ _ _ hpre, hl]
  · show (buildSteps _ _ _ _ _).2.registry = _
    rw [buildSteps_registry, hr]
    by_cases hm : cfg.networkName ∈ (mkInstaller d).vnets
    · rw [if_pos hm]
    · rw [if_neg hm, eraseReg_of_not_mem _ _ hm]

/-! ## The second pass sees the rebuilt devices (toward C6) -/

/-- A name-targeted `find?` fails on a filtered list whose filter excludes
that name. -/
theorem find?_name_filter_none (nm : String) (p : Link → Bool)
    (hp : ∀ l : Link, p l = true → (l.name == nm) = false) (ls : List Link) :
    (ls.filter p).find? (fun l => l.name == nm) = none := by
  rw [List.find?_eq_none]
  intro x hx
  have := hp x (List.mem_filter.1 hx).2
  simp [this]

/-- `addrPairs` distributes over append. -/
theorem addrPairs_append : ∀ xs ys : List Link,
    addrPairs (xs ++ ys) = addrPairs xs ++ addrPairs ys := by
  intro xs ys
  induction xs with
  | nil => rfl
  | cons x rest ih =>
    rw [List.cons_append, addrPairs, addrPairs, ih, List.append_assoc]

/-- Dropping links that contribute no matching address does not change the
first-match search over the flattened address enumeration. -/
theorem find?_addrPairs_filter (eips : List String) (q : Link → Bool) :
    ∀ ls : List Link, (∀ l ∈ ls, q l = false → findLocal eips l = none) →
      (addrPairs (ls.filter q)).find? (fun pr => decide (pr.2 ∈ eips))
        = (addrPairs ls).find? (fun pr => decide (pr.2 ∈ eips)) := by
  intro ls
  induction ls with
  | nil => intro _; rfl
  | cons l rest ih =>
    intro h
    have hrest := fun a ha hq => h a (List.mem_cons_of_mem _ ha) hq
    by_cases hq : q l = true
    · rw [List.filter_cons_of_pos hq, addrPairs, addrPairs,
        List.find?_append, List.find?_append, ih hrest]
    · have hnone : findLocal eips l = none :=
        h l (List.mem_cons_self _ _) (by simpa using hq)
      have hpl : (findLocal eips l).map (fun a => (l.name, a))
          = (l.addr_info.filterMap
              (fun info => info.localIp.map (fun a => (l.name, a)))).find?
              (fun pr => decide (pr.2 ∈ eips)) :=
        findLocal_eq_find? eips l.name l.addr_info
      rw [hnone] at hpl
      have hpl2 : (l.addr_info.filterMap
          (fun info => info.localIp.map (fun a => (l.name, a)))).find?
          (fun pr => decide (pr.2 ∈ eips)) = none := by
        rw [← hpl]
        rfl
      rw [List.filter_cons_of_neg (by simpa using hq), addrPairs,
        List.find?_append, hpl2, Option.none_or, ih hrest]

/-- After a successful pass, looking the tunnel name up in the new link list
hits the rebuilt tunnel, and the bridge name hits the rebuilt bridge. -/
theorem pass2_find_facts (d : DevState) (cfg : NetworkConfig) (device lip : String)
    (hne : cfg.tunnelName ≠ cfg.bridgeName) :
    ((d.links.filter (fun l =>
        decide (l.name ≠ cfg.bridgeName) && decide (l.name ≠ cfg.tunnelName))
        ++ [tunnelLink cfg device lip, bridgeLink cfg]).find?
        (fun l => l.name == cfg.tunnelName) = some (tunnelLink cfg device lip)) ∧
    ((d.links.filter (fun l =>
        decide (l.name ≠ cfg.bridgeName) && decide (l.name ≠ cfg.tunnelName))
        ++ [tunnelLink cfg device lip, bridgeLink cfg]).find?
        (fun l => l.name == cfg.bridgeName) = some (bridgeLink cfg)) := by
  have h1 : (d.links.filter (fun l =>
      decide (l.name ≠ cfg.bridgeName) && decide (l.name ≠ cfg.tunnelName))).find?
      (fun l => l.name == cfg.tunnelName) = none := by
    apply find?_name_filter_none
    intro l hl
    rw [Bool.and_eq_true, decide_eq_true_eq, decide_eq_true_eq] at hl
    simp [hl.2]
  have h2 : (d.links.filter (fun l =>
      decide (l.name ≠ cfg.bridgeName) && decide (l.name ≠ cfg.tunnelName))).find?
      (fun l => l.name == cfg.bridgeName) = none := by
    apply find?_name_filter_none
    intro l hl
    rw [Bool.and_eq_true, decide_eq_true_eq, decide_eq_true_eq] at hl
    simp [hl.1]
  constructor
  · rw [List.find?_append, h1, Option.none_or,
      List.find?_cons_of_pos _ (by simp [tunnelLink])]
  · rw [List.find?_append, h2, Option.none_or,
      List.find?_cons_of_neg _ (by simpa [tunnelLink] using hne),
      List.find?_cons_of_pos _ (by simp [bridgeLink])]

/-- The conflict check of the second pass succeeds: the names now carry the
expected kinds. -/
theorem pass2_check_ok (d1 : DevState) (cfg : NetworkConfig) (device lip : String)
    (h1 : d1.links.find? (fun l => l.name == cfg.tunnelName)
      = some (tunnelLink cfg device lip))
    (h2 : d1.links.find? (fun l => l.name == cfg.bridgeName)
      = some (bridgeLink cfg)) :
    check_conflict (mkInstaller d1) cfg.tunnelName cfg.bridgeName = .ok () := by
  have hint : (mkInstaller d1).interfaces = d1.links := rfl
  unfold check_conflict hasIf inVxlans inBridges
  rw [hint, h1, h2]
  simp [tunnelLink, bridgeLink]

/-- `eraseReg` passes over a prefix not containing the erased name. -/
theorem eraseReg_append_not_mem (n : String) :
    ∀ (xs ys : List RegNet), n ∉ xs.map (fun r => r.name) →
      eraseReg n (xs ++ ys) = xs ++ eraseReg n ys := by
  intro xs ys h
  induction xs with
  | nil => rfl
  | cons r rest ih =>
    rw [List.map_cons, List.mem_cons] at h
    push_neg at h
    rw [List.cons_append, eraseReg,
      if_neg (by simpa using fun he => h.1 he.symm), ih h.2]
    rfl

/-- C6: for every spec whose tunnel and bridge names differ (the data-model
invariant), on a machine with duplicate-free registry names where no link
occupying the tunnel or bridge name carries an address in `endpoint_ips`,
running a reconciliation pass twice in succession — the second from the state
the first produced — succeeds again and yields exactly the same device and
registration state (same links, same tunnel forwarding-database set, same
single registration bound to the bridge). -/
theorem reconcile_idempotent :
    ∀ (d : DevState) (cfg : NetworkConfig),
      cfg.tunnelName ≠ cfg.bridgeName →
      (d.registry.map (fun r => r.name)).Nodup →
      (∀ l ∈ d.links, l.name = cfg.tunnelName ∨ l.name = cfg.bridgeName →
        findLocal cfg.endpointIps l = none) →
      (∃ inst1, (reconcile_pass d cfg).1 = .ok inst1) →
      ((∃ inst2, (reconcile_pass (reconcile_pass d cfg).2 cfg).1 = .ok inst2) ∧
        netState (reconcile_pass (reconcile_pass d cfg).2 cfg).2
          = netState (reconcile_pass d cfg).2) := by
  intro d cfg hne hreg hsafe hok
  cases hc : check_conflict (mkInstaller d) cfg.tunnelName cfg.bridgeName with
  | error e =>
    obtain ⟨inst1, hp1⟩ := hok
    unfold reconcile_pass at hp1
    rw [construct_conflict_eq hc] at hp1
    simp at hp1
  | ok u =>
    obtain ⟨⟩ := u
    cases hf : find_underlay (mkInstaller d) cfg.endpointIps with
    | error e =>
      obtain ⟨inst1, hp1⟩ := hok
      unfold reconcile_pass at hp1
      rw [construct_noUnderlay_eq hc hf] at hp1
      simp at hp1
    | ok pr =>
      obtain ⟨device, lip⟩ := pr
      obtain ⟨hp1, hl1, hr1⟩ := pass_ok_netState d cfg device lip hc hf
      set d1 := (reconcile_pass d cfg).2 with hd1
      have hfacts := pass2_find_facts d cfg device lip hne
      have hfindT : d1.links.find? (fun l => l.name == cfg.tunnelName)
          = some (tunnelLink cfg device lip) := by rw [hl1]; exact hfacts.1
      have hfindB : d1.links.find? (fun l => l.name == cfg.bridgeName)
          = some (bridgeLink cfg) := by rw [hl1]; exact hfacts.2
      have hc2 : check_conflict (mkInstaller d1) cfg.tunnelName cfg.bridgeName
          = .ok () := pass2_check_ok d1 cfg device lip hfindT hfindB
      have hfind0 : (addrPairs d.links).find?
          (fun pr => decide (pr.2 ∈ cfg.endpointIps)) = some (device, lip) := by
        have hchar := (underlay_resolver_first_match (mkInstaller d) cfg.endpointIps).1
        rw [hf] at hchar
        cases hfind : (addrPairs (mkInstaller d).interfaces).find?
            (fun pr => decide (pr.2 ∈ cfg.endpointIps)) with
        | none => rw [hfind] at hchar; simp at hchar
        | some pr0 =>
          rw [hfind] at hchar
          injection hchar with hpr
          subst hpr
          exact hfind
      have hcond : ∀ l ∈ d.links,
          (decide (l.name ≠ cfg.bridgeName) && decide (l.name ≠ cfg.tunnelName)) = false →
          findLocal cfg.endpointIps l = none := by
        intro l hl hql
        by_cases htn : l.name = cfg.tunnelName
        · exact hsafe l hl (Or.inl htn)
        · by_cases hbn : l.name = cfg.bridgeName
          · exact hsafe l hl (Or.inr hbn)
          · have htrue : (decide (l.name ≠ cfg.bridgeName)
                && decide (l.name ≠ cfg.tunnelName)) = true := by
              simp [htn, hbn]
            rw [hql] at htrue
            simp at htrue
      have hf2 : find_underlay (mkInstaller d1) cfg.endpointIps = .ok (device, lip) := by
        have hchar := (underlay_resolver_first_match (mkInstaller d1) cfg.endpointIps).1
        have hfindd1 : (addrPairs (mkInstaller d1).interfaces).find?
            (fun pr => decide (pr.2 ∈ cfg.endpointIps)) = some (device, lip) := by
          show (addrPairs d1.links).find? _ = _
          rw [hl1, addrPairs_append]
          have hz : addrPairs [tunnelLink cfg device lip, bridgeLink cfg] = [] := rfl
          rw [hz, List.append_nil,
            find?_addrPairs_filter cfg.endpointIps _ d.links hcond]
          exact hfind0
        rw [hchar, hfindd1]
      obtain ⟨hp2, hl2, hr2⟩ := pass_ok_netState d1 cfg device lip hc2 hf2
      have hlinks : (reconcile_pass d1 cfg).2.links = d1.links := by
        rw [hl2, hl1, List.filter_append]
        have hFF : ((d.links.filter (fun l =>
            decide (l.name ≠ cfg.bridgeName) && decide (l.name ≠ cfg.tunnelName))).filter
              (fun l =>
                decide (l.name ≠ cfg.bridgeName) && decide (l.name ≠ cfg.tunnelName)))
            = d.links.filter (fun l =>
                decide (l.name ≠ cfg.bridgeName) && decide (l.name ≠ cfg.tunnelName)) :=
          List.filter_eq_self.2 (fun l hl => (List.mem_filter.1 hl).2)
        have hTB : ([tunnelLink cfg device lip, bridgeLink cfg].filter
            (fun l =>
              decide (l.name ≠ cfg.bridgeName) && decide (l.name ≠ cfg.tunnelName))) = [] := by
          simp [tunnelLink, bridgeLink]
        rw [hFF, hTB, List.append_nil]
      have hregs : (reconcile_pass d1 cfg).2.registry = d1.registry := by
        rw [hr2, hr1]
        have hnm : cfg.networkName
            ∉ (eraseReg cfg.networkName d.registry).map (fun r => r.name) := by
          rw [registryNames_eraseReg]
          exact List.Nodup.not_mem_erase hreg
        rw [eraseReg_append_not_mem _ _ _ hnm]
        have hz : eraseReg cfg.networkName
            [⟨cfg.networkName, cfg.bridgeName⟩] = ([] : List RegNet) := by
          simp [eraseReg]
        rw [hz, List.append_nil]
      refine ⟨⟨_, hp2⟩, ?_⟩
      unfold netState
      rw [hlinks, hregs]

/-- Witness for C6: the spec's §8 `fabric0` scenario on a blade addressed
`10.0.0.2`. -/
theorem reconcile_idempotent_witness :
    netState (reconcile_pass (reconcile_pass exIdemDev exIdemCfg).2 exIdemCfg).2
      = netState (reconcile_pass exIdemDev exIdemCfg).2 :=
  (reconcile_idempotent exIdemDev exIdemCfg (by decide) (by decide) (by decide)
    ⟨Installer.mk exIdemDev.links ["fabric0"], by decide⟩).2

end VtdsUbuntu
